import Mathlib

/-
Shallow embedding of the WordChain-Arena in-memory game store (`MemStorage`
in the server storage module). JavaScript `Map`s are modelled as association
lists with insertion-order `set` semantics; `Date.now()` and `Math.random()`
are modelled by explicit parameters (`now : Int` for the clock, `pick : Nat`
taken modulo the word-list length for random word choice, `botActs : Bool`
for the 70 percent bot-firing coin). Each top-level operation receives a
single `now` value, matching the single-threaded request handling. Raised
faults are `Except.error msg`; soft failures are the structured result value.
-/

namespace WordChain

/-- Assoc-list lookup modelling `Map.get`. -/
def alGet {α β : Type} [DecidableEq α] : List (α × β) → α → Option β
  | [], _ => none
  | (k, v) :: rest, k' => if k = k' then some v else alGet rest k'

/-- Assoc-list update modelling `Map.set`: replace in place, else append. -/
def alSet {α β : Type} [DecidableEq α] : List (α × β) → α → β → List (α × β)
  | [], k, v => [(k, v)]
  | (k', v') :: rest, k, v =>
      if k' = k then (k, v) :: rest else (k', v') :: alSet rest k v

inductive Status where
  | waiting
  | playing
  | finished
deriving DecidableEq, Repr

structure Game where
  id : String
  hostId : Int
  status : Status
  round : Nat
  currentWord : String
  roundEndsAt : Option Int
  isBotGame : Bool
deriving DecidableEq, Repr

structure Player where
  id : Nat
  gameId : String
  userId : Int
  score : Nat
  hasSubmitted : Bool
deriving DecidableEq, Repr

structure UserRec where
  id : Int
  username : String
deriving DecidableEq, Repr

structure MemStorage where
  users : List (Int × UserRec)
  games : List (String × Game)
  players : List (Nat × Player)
  gamePlayers : List (String × List Nat)
  userIdCounter : Nat
  playerIdCounter : Nat
deriving DecidableEq, Repr

/-- Fresh store as built by the constructor: empty maps, counters at 1. -/
def emptyStorage : MemStorage :=
  { users := [], games := [], players := [], gamePlayers := []
    userIdCounter := 1, playerIdCounter := 1 }

structure SubmitResult where
  valid : Bool
  message : Option String
deriving DecidableEq, Repr

/-- Character-wise uppercase, modelling `String.prototype.toUpperCase` on
the ASCII words this program uses. -/
def jsToUpper (s : String) : String := String.mk (s.data.map Char.toUpper)

/-- Last character of a string as a one-character string, or the empty
string, modelling `s.slice(-1)`. -/
def sliceLast (s : String) : String :=
  match s.data.getLast? with
  | some c => String.mk [c]
  | none => ""

/-- First character of a string as a one-character string, or the empty
string, modelling `s.charAt(0)`. -/
def charAt0 (s : String) : String :=
  match s.data.head? with
  | some c => String.mk [c]
  | none => ""

/-- Whitespace-stripping on both ends, modelling `String.prototype.trim`
on the character list (sufficient for the ASCII words this program uses). -/
def jsTrim (s : String) : String :=
  String.mk (((s.data.dropWhile Char.isWhitespace).reverse.dropWhile Char.isWhitespace).reverse)

/-- ASCII apostrophe, kept out of string literals. -/
def quoteStr : String := String.mk [Char.ofNat 39]

/-- Rejection message built by `submitWord` on a first-letter mismatch. -/
def mismatchMsg (lastChar : String) : String :=
  "Word must start with " ++ quoteStr ++ lastChar ++ quoteStr

def startWords : List String :=
  ["APPLE", "TIGER", "RIVER", "CLOUD", "MUSIC", "GHOST", "LEMON", "PIZZA"]

def backupWords : List String :=
  ["STORM", "BREAD", "NIGHT", "DREAM", "FLAME"]

namespace MemStorage

/-- Modelling `createUser`: assign the next sequential id and store. -/
def createUser (st : MemStorage) (username : String) : UserRec × MemStorage :=
  let id : Int := Int.ofNat st.userIdCounter
  let user : UserRec := { id := id, username := username }
  (user, { st with users := alSet st.users id user
                   userIdCounter := st.userIdCounter + 1 })

/-- Modelling `joinGame`: raises on missing game, non-waiting status, or a
full game; returns the existing record on rejoin; otherwise enrolls a new
player. The unreachable lookup failure after a successful find is given the
returned player id with zeroed fields, standing in for the non-null
assertion in the source. -/
def joinGame (st : MemStorage) (gameId : String) (userId : Int) :
    Except String Player × MemStorage :=
  match alGet st.games gameId with
  | none => (Except.error "Game not found", st)
  | some game =>
    if game.status ≠ Status.waiting then (Except.error "Game already started", st)
    else
      let playerIds := (alGet st.gamePlayers gameId).getD []
      if playerIds.length ≥ 4 then (Except.error "Game full", st)
      else
        match playerIds.find? (fun pid =>
            match alGet st.players pid with
            | some p => p.userId = userId
            | none => false) with
        | some pid =>
            (Except.ok ((alGet st.players pid).getD
              { id := pid, gameId := gameId, userId := userId
                score := 0, hasSubmitted := false }), st)
        | none =>
            let player : Player :=
              { id := st.playerIdCounter, gameId := gameId, userId := userId
                score := 0, hasSubmitted := false }
            (Except.ok player,
              { st with players := alSet st.players player.id player
                        gamePlayers := alSet st.gamePlayers gameId (playerIds ++ [player.id])
                        playerIdCounter := st.playerIdCounter + 1 })

/-- Modelling `createGame`: insert a fresh waiting game under the generated
id `newId`, auto-join the host, then push a bot player when requested. -/
def createGame (st : MemStorage) (hostId : Int) (isBotGame : Bool)
    (newId : String) : Game × MemStorage :=
  let game : Game :=
    { id := newId, hostId := hostId, status := Status.waiting, round := 0
      currentWord := "", roundEndsAt := none, isBotGame := isBotGame }
  let st1 := { st with games := alSet st.games newId game
                       gamePlayers := alSet st.gamePlayers newId [] }
  let st2 := (joinGame st1 newId hostId).2
  if isBotGame then
    let botPlayer : Player :=
      { id := st2.playerIdCounter, gameId := newId, userId := -1
        score := 0, hasSubmitted := false }
    (game, { st2 with players := alSet st2.players botPlayer.id botPlayer
                      gamePlayers :=
                        match alGet st2.gamePlayers newId with
                        | some pids => alSet st2.gamePlayers newId (pids ++ [botPlayer.id])
                        | none => st2.gamePlayers
                      playerIdCounter := st2.playerIdCounter + 1 })
  else (game, st2)

/-- Modelling `startGame`: raises only on a missing game; otherwise
unconditionally moves to playing, round 1, a starter word, expiry now+5000. -/
def startGame (st : MemStorage) (gameId : String) (now : Int) (pick : Nat) :
    Except String Unit × MemStorage :=
  match alGet st.games gameId with
  | none => (Except.error "Game not found", st)
  | some game =>
    let word := (startWords.get? (pick % startWords.length)).getD ""
    let g : Game :=
      { game with status := Status.playing, round := 1
                  currentWord := word, roundEndsAt := some (now + 5000) }
    (Except.ok (), { st with games := alSet st.games gameId g })

/-- Modelling the private `endRound`: at round 5 or above, finish and clear
the expiry; below, advance the round, install the winning word or a random
backup word, and set a fresh 5-second expiry. -/
def endRound (st : MemStorage) (game : Game) (winningWord : Option String)
    (now : Int) (pick : Nat) : MemStorage :=
  if game.round ≥ 5 then
    let g := { game with status := Status.finished, roundEndsAt := none }
    { st with games := alSet st.games g.id g }
  else
    let newWord :=
      match winningWord with
      | some w => w
      | none => (backupWords.get? (pick % backupWords.length)).getD ""
    let g := { game with round := game.round + 1, currentWord := newWord
                         roundEndsAt := some (now + 5000) }
    { st with games := alSet st.games g.id g }

/-- Modelling `submitWord`: soft-fails on missing or non-playing games and
on a first-letter mismatch; otherwise bumps the first enrolled player with
the given user id (when one exists) and advances the round with the
uppercased raw word. -/
def submitWord (st : MemStorage) (gameId : String) (userId : Int)
    (word : String) (now : Int) (pick : Nat) : SubmitResult × MemStorage :=
  match alGet st.games gameId with
  | none => ({ valid := false, message := some "Game not found" }, st)
  | some game =>
    if game.status ≠ Status.playing then
      ({ valid := false, message := some "Round not active" }, st)
    else
      let lastChar := jsToUpper (sliceLast game.currentWord)
      let firstChar := jsToUpper (charAt0 (jsTrim word))
      if firstChar ≠ lastChar then
        ({ valid := false, message := some (mismatchMsg lastChar) }, st)
      else
        let playerIds := (alGet st.gamePlayers gameId).getD []
        let found := (playerIds.map (fun pid => alGet st.players pid)).find?
          (fun po => match po with
            | some p => p.userId = userId
            | none => false)
        let st1 :=
          match found with
          | some (some p) =>
              { st with players := alSet st.players p.id { p with score := p.score + 1 } }
          | _ => st
        ({ valid := true, message := none },
          endRound st1 game (some (jsToUpper word)) now pick)

/-- Modelling `processBotMove`: no-op unless the game is a playing bot game
with between 1 and 3 seconds left; then, when the 70 percent coin fires,
submits the required letter followed by BOTWORD on behalf of user -1. -/
def processBotMove (st : MemStorage) (gameId : String) (now : Int)
    (botActs : Bool) (pick : Nat) : MemStorage :=
  match alGet st.games gameId with
  | none => st
  | some game =>
    if game.status ≠ Status.playing ∨ game.isBotGame = false then st
    else
      let timeLeft : Int :=
        match game.roundEndsAt with
        | some t => t - now
        | none => 0
      if timeLeft < 3000 ∧ timeLeft > 1000 then
        if botActs then
          let lastChar := jsToUpper (sliceLast game.currentWord)
          let botWord := lastChar ++ "BOTWORD"
          (submitWord st gameId (-1) botWord now pick).2
        else st
      else st

structure PlayerView where
  player : Player
  username : String
deriving DecidableEq, Repr

structure GameStateView where
  game : Game
  players : List PlayerView
deriving DecidableEq, Repr

/-- Modelling `getGame`: on a playing game past its expiry, resolve the
round as a timeout; on a playing bot game, run the bot hook; then project
the composed view from the updated store. -/
def getGame (st : MemStorage) (id : String) (now : Int) (pick : Nat)
    (botActs : Bool) (botPick : Nat) : Option GameStateView × MemStorage :=
  match alGet st.games id with
  | none => (none, st)
  | some game =>
    let timedOut : Bool :=
      decide (game.status = Status.playing) &&
        match game.roundEndsAt with
        | some t => decide (now > t)
        | none => false
    let st1 := if timedOut then endRound st game none now pick else st
    let game1 := (alGet st1.games id).getD game
    let st2 :=
      if game1.status = Status.playing ∧ game1.isBotGame then
        processBotMove st1 id now botActs botPick
      else st1
    let playerIds := (alGet st2.gamePlayers id).getD []
    let plist := playerIds.filterMap (fun pid => alGet st2.players pid)
    let pviews := plist.map (fun p =>
      let username :=
        if p.userId = -1 then "Alice (Bot)"
        else match alGet st2.users p.userId with
          | some u => u.username
          | none => "Unknown"
      ({ player := p, username := username } : PlayerView))
    let gameF := (alGet st2.games id).getD game1
    (some { game := gameF, players := pviews }, st2)

end MemStorage

/-- One public store operation, with all clock and randomness inputs
existentially packaged as constructor arguments. -/
inductive Step : MemStorage → MemStorage → Prop where
  | createUser (st : MemStorage) (name : String) :
      Step st (st.createUser name).2
  | createGame (st : MemStorage) (hostId : Int) (isBot : Bool) (newId : String) :
      Step st (st.createGame hostId isBot newId).2
  | joinGame (st : MemStorage) (gameId : String) (userId : Int) :
      Step st (st.joinGame gameId userId).2
  | startGame (st : MemStorage) (gameId : String) (now : Int) (pick : Nat) :
      Step st (st.startGame gameId now pick).2
  | submitWord (st : MemStorage) (gameId : String) (userId : Int)
      (word : String) (now : Int) (pick : Nat) :
      Step st (st.submitWord gameId userId word now pick).2
  | getGame (st : MemStorage) (id : String) (now : Int) (pick : Nat)
      (botActs : Bool) (botPick : Nat) :
      Step st (st.getGame id now pick botActs botPick).2
  | processBotMove (st : MemStorage) (gameId : String) (now : Int)
      (botActs : Bool) (pick : Nat) :
      Step st (st.processBotMove gameId now botActs pick)

/-- States reachable from the fresh store by public operations. -/
inductive Reachable : MemStorage → Prop where
  | init : Reachable emptyStorage
  | step {st st' : MemStorage} : Reachable st → Step st st' → Reachable st'

/-- Every stored game record carries its own map key as its id field. -/
def KeyIdInv (st : MemStorage) : Prop :=
  ∀ k g, alGet st.games k = some g → g.id = k

/-- Every enrollment list holds at most four player ids. -/
def CountInv (st : MemStorage) : Prop :=
  ∀ k l, alGet st.gamePlayers k = some l → l.length ≤ 4

/-- Every stored game has a non-null expiry exactly when it is playing. -/
def ExpiryInv (st : MemStorage) : Prop :=
  ∀ k g, alGet st.games k = some g → (g.roundEndsAt ≠ none ↔ g.status = Status.playing)

/-- Record created for a new game before enrollment. -/
@[reducible] def freshGame (hostId : Int) (isBot : Bool) (newId : String) : Game :=
  { id := newId, hostId := hostId, status := Status.waiting, round := 0,
    currentWord := "", roundEndsAt := none, isBotGame := isBot }

/-- Host player record enrolled by createGame. -/
def hostPlayer (st : MemStorage) (newId : String) (hostId : Int) : Player :=
  { id := st.playerIdCounter, gameId := newId, userId := hostId,
    score := 0, hasSubmitted := false }

/-- Bot player record enrolled by createGame for bot games. -/
def alicePlayer (st : MemStorage) (newId : String) : Player :=
  { id := st.playerIdCounter + 1, gameId := newId, userId := -1,
    score := 0, hasSubmitted := false }

/-- Concrete states used by witnesses and counterexamples: a host (user 1)
creates game GAME01, three users join, or the game is started and EVE-chained
to round 5 and finished. -/
def stGame1 : MemStorage := (emptyStorage.createGame 1 false "GAME01").2

def stGame4 : MemStorage :=
  ((((stGame1.joinGame "GAME01" 2).2).joinGame "GAME01" 3).2.joinGame "GAME01" 4).2

def stPlaying : MemStorage := (stGame1.startGame "GAME01" 1000 0).2

def stR2 : MemStorage := (stPlaying.submitWord "GAME01" 1 "EVE" 2000 0).2
def stR3 : MemStorage := (stR2.submitWord "GAME01" 1 "EVE" 2000 0).2
def stR4 : MemStorage := (stR3.submitWord "GAME01" 1 "EVE" 2000 0).2
def stR5 : MemStorage := (stR4.submitWord "GAME01" 1 "EVE" 2000 0).2
def stFinished : MemStorage := (stR5.submitWord "GAME01" 99 "EGG" 2000 0).2

def gPlaying : Game :=
  { id := "GAME01", hostId := 1, status := Status.playing, round := 1,
    currentWord := "APPLE", roundEndsAt := some 6000, isBotGame := false }

def gFinished : Game :=
  { id := "GAME01", hostId := 1, status := Status.finished, round := 5,
    currentWord := "EVE", roundEndsAt := none, isBotGame := false }

def hostRec : Player :=
  { id := 1, gameId := "GAME01", userId := 1, score := 0, hasSubmitted := false }

/-- Lookup after update at the same key. -/
theorem alGet_alSet_self {α β : Type} [DecidableEq α]
    (m : List (α × β)) (k : α) (v : β) : alGet (alSet m k v) k = some v := by
  induction m with
  | nil => simp [alGet, alSet]
  | cons hd tl ih =>
      by_cases h : hd.1 = k
      · simp [alSet, alGet, h]
      · simp [alSet, alGet, h, ih]

/-- Lookup after update at a different key. -/
theorem alGet_alSet_ne {α β : Type} [DecidableEq α]
    (m : List (α × β)) (k k' : α) (v : β) (h : k ≠ k') :
    alGet (alSet m k v) k' = alGet m k' := by
  induction m with
  | nil => simp [alGet, alSet, h]
  | cons hd tl ih =>
      by_cases hh : hd.1 = k
      · simp [alSet, alGet, hh, h]
      · by_cases hk' : hd.1 = k'
        · simp [alSet, alGet, hh, hk', Ne.symm h]
        · simp [alSet, alGet, hh, hk', ih]

/-- Map on the underlying list commutes with the final-element lookup. -/
theorem getLast?_list_map {α β : Type} (f : α → β) (l : List α) :
    (l.map f).getLast? = (l.getLast?).map f := by
  induction l with
  | nil => rfl
  | cons hd tl ih =>
      cases tl with
      | nil => rfl
      | cons h2 t2 => simpa using ih

/-- Helper: when the looked-up game carries an expiry exactly 5000 ms after
the current instant, the bot hook does nothing, because the bot only fires
strictly between 1000 and 3000 ms before expiry. -/
theorem processBotMove_fresh (st : MemStorage) (gameId : String) (now : Int)
    (botActs : Bool) (pick : Nat) (g : Game)
    (hg : alGet st.games gameId = some g)
    (ht : g.roundEndsAt = some (now + 5000)) :
    st.processBotMove gameId now botActs pick = st := by
  unfold MemStorage.processBotMove
  rw [hg]
  by_cases hc : g.status ≠ Status.playing ∨ g.isBotGame = false
  · simp [hc]
  · have harith : ¬ (now + 5000 - now < 3000 ∧ now + 5000 - now > 1000) := by omega
    simp [hc, ht, harith]

/-- C3: for a playing game, a submission whose trimmed first character
(uppercased) differs from the last character of the current word
(uppercased) returns valid false with the message naming the required
letter, and the returned store is the input store unchanged. -/
theorem submitWord_mismatch_unchanged
    (st : MemStorage) (gameId : String) (userId : Int) (word : String)
    (now : Int) (pick : Nat) (g : Game)
    (hg : alGet st.games gameId = some g)
    (hps : g.status = Status.playing)
    (hne : jsToUpper (charAt0 (jsTrim word)) ≠ jsToUpper (sliceLast g.currentWord)) :
    st.submitWord gameId userId word now pick =
      ({ valid := false,
         message := some (mismatchMsg (jsToUpper (sliceLast g.currentWord))) }, st) := by
  unfold MemStorage.submitWord
  rw [hg]
  simp [hps, hne]

/-- C4: for a playing game and an enrolled submitter whose word passes the
first-letter check, submitWord returns valid true, bumps exactly the first
matching player record by one point, leaves every other player record and
the enrollment lists unchanged, and either advances the round by one with
the uppercased submitted word as the new current word, or finishes the game
and clears the expiry when the round counter has reached 5. -/
theorem submitWord_success_enrolled
    (st : MemStorage) (gameId : String) (userId : Int) (word : String)
    (now : Int) (pick : Nat) (g : Game) (p : Player)
    (hg : alGet st.games gameId = some g)
    (hid : g.id = gameId)
    (hps : g.status = Status.playing)
    (heq : jsToUpper (charAt0 (jsTrim word)) = jsToUpper (sliceLast g.currentWord))
    (hfind : (((alGet st.gamePlayers gameId).getD []).map (fun pid => alGet st.players pid)).find?
        (fun po => match po with
          | some q => q.userId = userId
          | none => false) = some (some p)) :
    (st.submitWord gameId userId word now pick).1 = { valid := true, message := none } ∧
    p.userId = userId ∧
    alGet (st.submitWord gameId userId word now pick).2.players p.id =
      some { p with score := p.score + 1 } ∧
    (∀ q, q ≠ p.id →
      alGet (st.submitWord gameId userId word now pick).2.players q = alGet st.players q) ∧
    (st.submitWord gameId userId word now pick).2.gamePlayers = st.gamePlayers ∧
    (g.round ≥ 5 →
      alGet (st.submitWord gameId userId word now pick).2.games gameId =
        some { g with status := Status.finished, roundEndsAt := none }) ∧
    (g.round < 5 →
      alGet (st.submitWord gameId userId word now pick).2.games gameId =
        some { g with round := g.round + 1, currentWord := jsToUpper word,
                      roundEndsAt := some (now + 5000) }) := by
  have huser : p.userId = userId := by
    have := List.find?_some hfind
    simpa using this
  unfold MemStorage.submitWord
  rw [hg]
  simp only [hps, heq]
  simp only [decide_True, ite_true, ne_eq, not_true_eq_false, ite_false]
  rw [hfind]
  unfold MemStorage.endRound
  refine ⟨trivial, huser, ?_, ?_, ?_, ?_, ?_⟩
  · by_cases h5 : g.round ≥ 5 <;> simp [h5, alGet_alSet_self]
  · intro q hq
    by_cases h5 : g.round ≥ 5 <;>
      simp [h5, alGet_alSet_ne _ _ _ _ (Ne.symm hq), alGet_alSet_ne _ _ _ _ hq]
  · by_cases h5 : g.round ≥ 5 <;> simp [h5]
  · intro h5
    simp [h5, hid, alGet_alSet_self]
  · intro h5
    have h5' : ¬ g.round ≥ 5 := by omega
    simp [h5', hid, hps, alGet_alSet_self]

/-- C1 amended: for a waiting game with FEWER THAN FOUR enrolled players,
joining again with an already-enrolled user id returns the stored player
record of the first enrolled player with that user id and leaves the store
unchanged; the amendment is forced because the full-game check runs before
the rejoin check, so a rejoin into a four-player game raises Game full. -/
theorem joinGame_rejoin_idempotent
    (st : MemStorage) (gameId : String) (userId : Int) (g : Game)
    (pids : List Nat) (pid : Nat) (p : Player)
    (hg : alGet st.games gameId = some g)
    (hw : g.status = Status.waiting)
    (hpl : alGet st.gamePlayers gameId = some pids)
    (hlen : pids.length < 4)
    (hfind : pids.find? (fun i =>
        match alGet st.players i with
        | some q => q.userId = userId
        | none => false) = some pid)
    (hp : alGet st.players pid = some p) :
    st.joinGame gameId userId = (Except.ok p, st) := by
  have hlen' : ¬ pids.length ≥ 4 := by omega
  unfold MemStorage.joinGame
  rw [hg]
  simp only [hw, hpl]
  simp [hlen', hfind, hp]

/-- C9 amended: for a playing game, a submission from a user id with no
matching enrolled player that passes the first-letter check still returns
valid true and leaves every player record untouched, and either advances
the round with the uppercased submitted word, or, when the round counter
has reached 5, finishes the game instead of advancing; the amendment
(finalization instead of an advance at round 5) is forced by the round-5
counterexample. -/
theorem submitWord_success_not_enrolled
    (st : MemStorage) (gameId : String) (userId : Int) (word : String)
    (now : Int) (pick : Nat) (g : Game)
    (hg : alGet st.games gameId = some g)
    (hid : g.id = gameId)
    (hps : g.status = Status.playing)
    (heq : jsToUpper (charAt0 (jsTrim word)) = jsToUpper (sliceLast g.currentWord))
    (hfind : (((alGet st.gamePlayers gameId).getD []).map (fun pid => alGet st.players pid)).find?
        (fun po => match po with
          | some q => q.userId = userId
          | none => false) = none) :
    (st.submitWord gameId userId word now pick).1 = { valid := true, message := none } ∧
    (st.submitWord gameId userId word now pick).2.players = st.players ∧
    (st.submitWord gameId userId word now pick).2.gamePlayers = st.gamePlayers ∧
    (g.round ≥ 5 →
      alGet (st.submitWord gameId userId word now pick).2.games gameId =
        some { g with status := Status.finished, roundEndsAt := none }) ∧
    (g.round < 5 →
      alGet (st.submitWord gameId userId word now pick).2.games gameId =
        some { g with round := g.round + 1, currentWord := jsToUpper word,
                      roundEndsAt := some (now + 5000) }) := by
  unfold MemStorage.submitWord
  rw [hg]
  simp only [hps, heq]
  simp only [decide_True, ite_true, ne_eq, not_true_eq_false, ite_false]
  rw [hfind]
  unfold MemStorage.endRound
  refine ⟨trivial, ?_, ?_, ?_, ?_⟩
  · by_cases h5 : g.round ≥ 5 <;> simp [h5]
  · by_cases h5 : g.round ≥ 5 <;> simp [h5]
  · intro h5
    simp [h5, hid, alGet_alSet_self]
  · intro h5
    have h5' : ¬ g.round ≥ 5 := by omega
    simp [h5', hid, hps, alGet_alSet_self]

/-- C10: a successful submission below round 5 stores the RAW submitted
word uppercased, without trimming, as the new current word; consequently
the next required letter, the last character of the stored word, is the
uppercase of the raw word's last character, which is the whitespace
character itself when the submission ends in whitespace. -/
theorem submitWord_stores_raw_uppercased
    (st : MemStorage) (gameId : String) (userId : Int) (word : String)
    (now : Int) (pick : Nat) (g : Game)
    (hg : alGet st.games gameId = some g)
    (hid : g.id = gameId)
    (hps : g.status = Status.playing)
    (hr : g.round < 5)
    (heq : jsToUpper (charAt0 (jsTrim word)) = jsToUpper (sliceLast g.currentWord)) :
    (alGet (st.submitWord gameId userId word now pick).2.games gameId).map Game.currentWord
      = some (jsToUpper word) ∧
    (∀ c : Char, word.data.getLast? = some c →
      (alGet (st.submitWord gameId userId word now pick).2.games gameId).map
          (fun g2 => sliceLast g2.currentWord)
        = some (String.mk [Char.toUpper c])) := by
  have h5' : ¬ g.round ≥ 5 := by omega
  have hslice : ∀ c : Char, word.data.getLast? = some c →
      sliceLast (jsToUpper word) = String.mk [Char.toUpper c] := by
    intro c hc
    unfold sliceLast jsToUpper
    simp [getLast?_list_map, hc]
  unfold MemStorage.submitWord
  rw [hg]
  simp only [hps, heq]
  simp only [decide_True, ite_true, ne_eq, not_true_eq_false, ite_false]
  unfold MemStorage.endRound
  constructor
  · cases hfound : (((alGet st.gamePlayers gameId).getD []).map (fun pid => alGet st.players pid)).find?
        (fun po => match po with
          | some q => q.userId = userId
          | none => false) with
    | none => simp [h5', hid, alGet_alSet_self]
    | some po =>
        cases po with
        | none => simp [h5', hid, alGet_alSet_self]
        | some q => simp [h5', hid, alGet_alSet_self]
  · intro c hc
    cases hfound : (((alGet st.gamePlayers gameId).getD []).map (fun pid => alGet st.players pid)).find?
        (fun po => match po with
          | some q => q.userId = userId
          | none => false) with
    | none => simp [h5', hid, alGet_alSet_self, hslice c hc]
    | some po =>
        cases po with
        | none => simp [h5', hid, alGet_alSet_self, hslice c hc]
        | some q => simp [h5', hid, alGet_alSet_self, hslice c hc]

/-- C6: startGame raises Game not found exactly when the game is missing;
otherwise, with no check on player count or current status, it succeeds and
rewrites the game to playing, round 1, a word drawn from the fixed
eight-element starter list, and an expiry 5000 ms from now, touching no
other game. -/
theorem startGame_spec
    (st : MemStorage) (gameId : String) (now : Int) (pick : Nat) :
    (alGet st.games gameId = none →
      st.startGame gameId now pick = (Except.error "Game not found", st)) ∧
    (∀ g : Game, alGet st.games gameId = some g →
      (st.startGame gameId now pick).1 = Except.ok () ∧
      alGet (st.startGame gameId now pick).2.games gameId =
        some { g with status := Status.playing, round := 1,
                      currentWord := (startWords.get? (pick % startWords.length)).getD "",
                      roundEndsAt := some (now + 5000) } ∧
      (startWords.get? (pick % startWords.length)).getD "" ∈ startWords ∧
      (∀ k, k ≠ gameId →
        alGet (st.startGame gameId now pick).2.games k = alGet st.games k)) := by
  have hmem : ∀ n, n < startWords.length → (startWords.get? n).getD "" ∈ startWords := by decide
  constructor
  · intro hnone
    unfold MemStorage.startGame
    rw [hnone]
  · intro g hg
    unfold MemStorage.startGame
    rw [hg]
    refine ⟨rfl, ?_, ?_, ?_⟩
    · simp [alGet_alSet_self]
    · exact hmem _ (Nat.mod_lt _ (by decide))
    · intro k hk
      simp [alGet_alSet_ne _ _ _ _ (Ne.symm hk)]

/-- C7: reading a playing game whose expiry has passed resolves the round
as a timeout before returning: no player record changes, and below round 5
the round advances by one with a word from the fixed five-element backup
list and a fresh 5000 ms expiry, while at round 5 the game finishes and the
expiry is cleared; the bot hook never fires on the same read because the
fresh expiry is 5000 ms away. -/
theorem getGame_timeout
    (st : MemStorage) (id : String) (now : Int) (pick : Nat)
    (botActs : Bool) (botPick : Nat) (g : Game) (t : Int)
    (hg : alGet st.games id = some g)
    (hid : g.id = id)
    (hps : g.status = Status.playing)
    (ht : g.roundEndsAt = some t)
    (hnow : now > t) :
    (st.getGame id now pick botActs botPick).2.players = st.players ∧
    (g.round < 5 →
      alGet (st.getGame id now pick botActs botPick).2.games id =
        some { g with round := g.round + 1,
                      currentWord := (backupWords.get? (pick % backupWords.length)).getD "",
                      roundEndsAt := some (now + 5000) } ∧
      (backupWords.get? (pick % backupWords.length)).getD "" ∈ backupWords) ∧
    (g.round ≥ 5 →
      alGet (st.getGame id now pick botActs botPick).2.games id =
        some { g with status := Status.finished, roundEndsAt := none }) := by
  have hmem : ∀ n, n < backupWords.length → (backupWords.get? n).getD "" ∈ backupWords := by decide
  unfold MemStorage.getGame
  rw [hg]
  simp only [hps, ht, hnow, decide_True, Bool.true_and, ite_true]
  unfold MemStorage.endRound
  by_cases h5 : g.round >= 5
  · simp only [h5, ite_true]
    have hget : alGet (alSet st.games g.id { g with status := Status.finished, roundEndsAt := none }) id
        = some { g with status := Status.finished, roundEndsAt := none } := by
      rw [hid]; exact alGet_alSet_self _ _ _
    simp only [hget, Option.getD_some]
    refine ⟨rfl, ?_, ?_⟩
    · intro hlt; omega
    · intro _; exact hget
  · simp only [h5, ite_false]
    set w := (backupWords.get? (pick % backupWords.length)).getD "" with hw
    set grec : Game :=
      { g with round := g.round + 1, currentWord := w, roundEndsAt := some (now + 5000) } with hgrec
    have hget : alGet (alSet st.games g.id grec) id = some grec := by
      rw [hid]; exact alGet_alSet_self _ _ _
    have hwmem : w ∈ backupWords := hmem _ (Nat.mod_lt _ (by decide))
    simp only [hget, Option.getD_some]
    rw [processBotMove_fresh _ id now botActs botPick grec hget rfl]
    rw [ite_self]
    refine ⟨rfl, ?_, ?_⟩
    · intro _
      refine ⟨?_, hwmem⟩
      rw [hget, hgrec]
      simp [hps]
    · intro hge; exact hge.elim

open MemStorage

theorem createUser_games (st : MemStorage) (name : String) :
    (st.createUser name).2.games = st.games := rfl

theorem createUser_gamePlayers (st : MemStorage) (name : String) :
    (st.createUser name).2.gamePlayers = st.gamePlayers := rfl

theorem joinGame_games (st : MemStorage) (gameId : String) (userId : Int) :
    (st.joinGame gameId userId).2.games = st.games := by
  unfold MemStorage.joinGame
  cases alGet st.games gameId with
  | none => rfl
  | some game =>
      by_cases hs : game.status ≠ Status.waiting
      · simp [hs]
      · by_cases hl : ((alGet st.gamePlayers gameId).getD []).length ≥ 4
        · simp [hs, hl]
        · cases hf : ((alGet st.gamePlayers gameId).getD []).find? (fun pid =>
              match alGet st.players pid with
              | some q => q.userId = userId
              | none => false) with
          | none => simp [hs, hl, hf]
          | some pid => simp [hs, hl, hf]

theorem startGame_gamePlayers (st : MemStorage) (gameId : String) (now : Int) (pick : Nat) :
    (st.startGame gameId now pick).2.gamePlayers = st.gamePlayers := by
  unfold MemStorage.startGame
  cases alGet st.games gameId with
  | none => rfl
  | some game => rfl

theorem startGame_players (st : MemStorage) (gameId : String) (now : Int) (pick : Nat) :
    (st.startGame gameId now pick).2.players = st.players := by
  unfold MemStorage.startGame
  cases alGet st.games gameId with
  | none => rfl
  | some game => rfl

theorem endRound_gamePlayers (st : MemStorage) (game : Game) (w : Option String)
    (now : Int) (pick : Nat) :
    (st.endRound game w now pick).gamePlayers = st.gamePlayers := by
  unfold MemStorage.endRound
  by_cases h5 : game.round ≥ 5 <;> simp [h5]

theorem endRound_players (st : MemStorage) (game : Game) (w : Option String)
    (now : Int) (pick : Nat) :
    (st.endRound game w now pick).players = st.players := by
  unfold MemStorage.endRound
  by_cases h5 : game.round ≥ 5 <;> simp [h5]

theorem submitWord_gamePlayers (st : MemStorage) (gameId : String) (userId : Int)
    (word : String) (now : Int) (pick : Nat) :
    (st.submitWord gameId userId word now pick).2.gamePlayers = st.gamePlayers := by
  unfold MemStorage.submitWord
  cases alGet st.games gameId with
  | none => rfl
  | some game =>
      by_cases hs : game.status ≠ Status.playing
      · simp [hs]
      · by_cases hm : jsToUpper (charAt0 (jsTrim word)) ≠ jsToUpper (sliceLast game.currentWord)
        · simp [hs, hm]
        · cases hf : (((alGet st.gamePlayers gameId).getD []).map (fun pid => alGet st.players pid)).find?
              (fun po => match po with
                | some q => q.userId = userId
                | none => false) with
          | none => simp [hs, hm, hf, endRound_gamePlayers]
          | some po =>
              cases po with
              | none => simp [hs, hm, hf, endRound_gamePlayers]
              | some q => simp [hs, hm, hf, endRound_gamePlayers]

theorem processBotMove_gamePlayers (st : MemStorage) (gameId : String) (now : Int)
    (botActs : Bool) (pick : Nat) :
    (st.processBotMove gameId now botActs pick).gamePlayers = st.gamePlayers := by
  unfold MemStorage.processBotMove
  cases alGet st.games gameId with
  | none => rfl
  | some game =>
      by_cases hc : game.status ≠ Status.playing ∨ game.isBotGame = false
      · simp [hc]
      · by_cases hw : (match game.roundEndsAt with
            | some t => t - now
            | none => 0) < 3000 ∧ (match game.roundEndsAt with
            | some t => t - now
            | none => 0) > 1000
        · cases botActs with
          | false => simp [hc, hw]
          | true => simp [hc, hw, submitWord_gamePlayers]
        · simp [hc, hw]

theorem getGame_gamePlayers (st : MemStorage) (id : String) (now : Int) (pick : Nat)
    (botActs : Bool) (botPick : Nat) :
    (st.getGame id now pick botActs botPick).2.gamePlayers = st.gamePlayers := by
  unfold MemStorage.getGame
  cases alGet st.games id with
  | none => rfl
  | some game =>
      by_cases htd : (decide (game.status = Status.playing) &&
          match game.roundEndsAt with
          | some t => decide (now > t)
          | none => false) = true
      · simp only [htd, ite_true]
        by_cases hb : ((alGet (st.endRound game none now pick).games id).getD game).status
              = Status.playing ∧
            ((alGet (st.endRound game none now pick).games id).getD game).isBotGame = true
        · simp [hb, processBotMove_gamePlayers, endRound_gamePlayers]
        · simp [hb, endRound_gamePlayers]
      · simp only [htd, ite_false]
        by_cases hb : ((alGet st.games id).getD game).status = Status.playing ∧
            ((alGet st.games id).getD game).isBotGame = true
        · simp [hb, processBotMove_gamePlayers]
        · simp [hb]
open MemStorage

theorem endRound_KeyIdInv (st : MemStorage) (game : Game) (w : Option String)
    (now : Int) (pick : Nat) (h : KeyIdInv st) :
    KeyIdInv (st.endRound game w now pick) := by
  unfold MemStorage.endRound
  by_cases h5 : game.round ≥ 5 <;>
    · simp only [h5, ite_true, ite_false]
      intro k g' hk
      by_cases hkk : k = game.id
      · subst hkk
        rw [alGet_alSet_self] at hk
        cases hk
        rfl
      · rw [alGet_alSet_ne _ _ _ _ (fun hh => hkk hh.symm)] at hk
        exact h k g' hk

theorem submitWord_KeyIdInv (st : MemStorage) (gameId : String) (userId : Int)
    (word : String) (now : Int) (pick : Nat) (h : KeyIdInv st) :
    KeyIdInv (st.submitWord gameId userId word now pick).2 := by
  unfold MemStorage.submitWord
  cases alGet st.games gameId with
  | none => exact h
  | some game =>
      dsimp only
      by_cases hs : game.status ≠ Status.playing
      · rw [if_pos hs]; exact h
      · rw [if_neg hs]
        by_cases hm : jsToUpper (charAt0 (jsTrim word)) ≠ jsToUpper (sliceLast game.currentWord)
        · rw [if_pos hm]; exact h
        · rw [if_neg hm]
          cases hf : (((alGet st.gamePlayers gameId).getD []).map (fun pid => alGet st.players pid)).find?
              (fun po => match po with
                | some q => q.userId = userId
                | none => false) with
          | none =>
              exact endRound_KeyIdInv _ _ _ _ _ h
          | some po =>
              cases po with
              | none =>
                  exact endRound_KeyIdInv _ _ _ _ _ h
              | some q =>
                  exact endRound_KeyIdInv _ _ _ _ _ h

theorem createUser_KeyIdInv (st : MemStorage) (name : String) (h : KeyIdInv st) :
    KeyIdInv (st.createUser name).2 := h

theorem joinGame_KeyIdInv (st : MemStorage) (gameId : String) (userId : Int)
    (h : KeyIdInv st) : KeyIdInv (st.joinGame gameId userId).2 := by
  intro k g hk
  rw [joinGame_games] at hk
  exact h k g hk

theorem startGame_KeyIdInv (st : MemStorage) (gameId : String) (now : Int)
    (pick : Nat) (h : KeyIdInv st) : KeyIdInv (st.startGame gameId now pick).2 := by
  unfold MemStorage.startGame
  cases hg : alGet st.games gameId with
  | none => exact h
  | some game =>
      dsimp only
      intro k g' hk
      by_cases hkk : k = gameId
      · subst hkk
        rw [alGet_alSet_self] at hk
        cases hk
        show game.id = _
        exact h _ _ hg
      · rw [alGet_alSet_ne _ _ _ _ (fun hh => hkk hh.symm)] at hk
        exact h k g' hk

theorem createGame_KeyIdInv (st : MemStorage) (hostId : Int) (isBot : Bool)
    (newId : String) (h : KeyIdInv st) :
    KeyIdInv (st.createGame hostId isBot newId).2 := by
  have hbase : ∀ k g', alGet (alSet st.games newId
      ({ id := newId, hostId := hostId, status := Status.waiting, round := 0,
         currentWord := "", roundEndsAt := none, isBotGame := isBot } : Game)) k = some g' →
      g'.id = k := by
    intro k g' hk
    by_cases hkk : k = newId
    · subst hkk
      rw [alGet_alSet_self] at hk
      cases hk
      rfl
    · rw [alGet_alSet_ne _ _ _ _ (fun hh => hkk hh.symm)] at hk
      exact h k g' hk
  unfold MemStorage.createGame
  by_cases hb : isBot = true
  · rw [if_pos hb]
    intro k g' hk
    dsimp only at hk
    rw [joinGame_games] at hk
    exact hbase k g' hk
  · rw [if_neg hb]
    intro k g' hk
    dsimp only at hk
    rw [joinGame_games] at hk
    exact hbase k g' hk

theorem processBotMove_KeyIdInv (st : MemStorage) (gameId : String) (now : Int)
    (botActs : Bool) (pick : Nat) (h : KeyIdInv st) :
    KeyIdInv (st.processBotMove gameId now botActs pick) := by
  unfold MemStorage.processBotMove
  cases alGet st.games gameId with
  | none => exact h
  | some game =>
      dsimp only
      by_cases hc : game.status ≠ Status.playing ∨ game.isBotGame = false
      · rw [if_pos hc]; exact h
      · rw [if_neg hc]
        by_cases hw : (match game.roundEndsAt with
            | some t => t - now
            | none => 0) < 3000 ∧ (match game.roundEndsAt with
            | some t => t - now
            | none => 0) > 1000
        · rw [if_pos hw]
          cases botActs with
          | false => exact h
          | true =>
              simp only [ite_true]
              exact submitWord_KeyIdInv _ _ _ _ _ _ h
        · rw [if_neg hw]; exact h

/-- Helper: a predicate on stores holds on a conditional store when it
holds on both branches. -/
theorem invProp_ite (P : MemStorage → Prop) (b : Prop) [Decidable b]
    (s1 s2 : MemStorage) (h1 : P s1) (h2 : P s2) : P (if b then s1 else s2) := by
  by_cases hb : b
  · rw [if_pos hb]; exact h1
  · rw [if_neg hb]; exact h2

theorem getGame_KeyIdInv (st : MemStorage) (id : String) (now : Int) (pick : Nat)
    (botActs : Bool) (botPick : Nat) (h : KeyIdInv st) :
    KeyIdInv (st.getGame id now pick botActs botPick).2 := by
  unfold MemStorage.getGame
  cases alGet st.games id with
  | none => exact h
  | some game =>
      dsimp only
      apply invProp_ite KeyIdInv
      · apply processBotMove_KeyIdInv
        apply invProp_ite KeyIdInv
        · exact endRound_KeyIdInv _ _ _ _ _ h
        · exact h
      · apply invProp_ite KeyIdInv
        · exact endRound_KeyIdInv _ _ _ _ _ h
        · exact h

theorem step_KeyIdInv {st st' : MemStorage} (hs : Step st st') (h : KeyIdInv st) :
    KeyIdInv st' := by
  cases hs with
  | createUser name => exact createUser_KeyIdInv _ name h
  | createGame hostId isBot newId => exact createGame_KeyIdInv _ hostId isBot newId h
  | joinGame gameId userId => exact joinGame_KeyIdInv _ gameId userId h
  | startGame gameId now pick => exact startGame_KeyIdInv _ gameId now pick h
  | submitWord gameId userId word now pick =>
      exact submitWord_KeyIdInv _ gameId userId word now pick h
  | getGame id now pick botActs botPick =>
      exact getGame_KeyIdInv _ id now pick botActs botPick h
  | processBotMove gameId now botActs pick =>
      exact processBotMove_KeyIdInv _ gameId now botActs pick h

theorem reachable_KeyIdInv {st : MemStorage} (h : Reachable st) : KeyIdInv st := by
  induction h with
  | init => intro k g hk; cases hk
  | step hr hs ih => exact step_KeyIdInv hs ih

theorem CountInv_of_eq {s1 s2 : MemStorage} (he : s2.gamePlayers = s1.gamePlayers)
    (h : CountInv s1) : CountInv s2 := by
  intro k l hk
  rw [he] at hk
  exact h k l hk

/-- Helper: joining a waiting game with an empty enrollment list always
creates and enrolls a fresh player record. -/
theorem joinGame_fresh (st : MemStorage) (gameId : String) (userId : Int)
    (g : Game)
    (hg : alGet st.games gameId = some g)
    (hw : g.status = Status.waiting)
    (hpl : alGet st.gamePlayers gameId = some []) :
    st.joinGame gameId userId =
      (Except.ok ({ id := st.playerIdCounter, gameId := gameId, userId := userId,
                    score := 0, hasSubmitted := false } : Player),
       { st with
           players := alSet st.players st.playerIdCounter
             { id := st.playerIdCounter, gameId := gameId, userId := userId,
               score := 0, hasSubmitted := false },
           gamePlayers := alSet st.gamePlayers gameId [st.playerIdCounter],
           playerIdCounter := st.playerIdCounter + 1 }) := by
  unfold MemStorage.joinGame
  rw [hg]
  simp [hw, hpl]

theorem joinGame_CountInv (st : MemStorage) (gameId : String) (userId : Int)
    (h : CountInv st) : CountInv (st.joinGame gameId userId).2 := by
  unfold MemStorage.joinGame
  cases alGet st.games gameId with
  | none => exact h
  | some game =>
      dsimp only
      by_cases hs : game.status ≠ Status.waiting
      · rw [if_pos hs]; exact h
      · rw [if_neg hs]
        by_cases hl : ((alGet st.gamePlayers gameId).getD []).length ≥ 4
        · rw [if_pos hl]; exact h
        · rw [if_neg hl]
          cases hf : ((alGet st.gamePlayers gameId).getD []).find? (fun pid =>
              match alGet st.players pid with
              | some q => q.userId = userId
              | none => false) with
          | some pid => exact h
          | none =>
              intro k l hk
              dsimp only at hk
              by_cases hkk : k = gameId
              · subst hkk
                rw [alGet_alSet_self] at hk
                cases hk
                have : ((alGet st.gamePlayers k).getD []).length < 4 := by omega
                simp only [List.length_append, List.length_cons, List.length_nil]
                omega
              · rw [alGet_alSet_ne _ _ _ _ (fun hh => hkk hh.symm)] at hk
                exact h k l hk

/-- Characterization of the store produced by createGame. -/
theorem createGame_snd (st : MemStorage) (hostId : Int) (isBot : Bool) (newId : String) :
    (st.createGame hostId isBot newId).2 =
      if isBot = true then
        { users := st.users,
          games := alSet st.games newId (freshGame hostId isBot newId),
          players := alSet (alSet st.players st.playerIdCounter (hostPlayer st newId hostId))
            (st.playerIdCounter + 1) (alicePlayer st newId),
          gamePlayers := alSet (alSet (alSet st.gamePlayers newId []) newId [st.playerIdCounter])
            newId ([st.playerIdCounter] ++ [st.playerIdCounter + 1]),
          userIdCounter := st.userIdCounter,
          playerIdCounter := st.playerIdCounter + 1 + 1 }
      else
        { users := st.users,
          games := alSet st.games newId (freshGame hostId isBot newId),
          players := alSet st.players st.playerIdCounter (hostPlayer st newId hostId),
          gamePlayers := alSet (alSet st.gamePlayers newId []) newId [st.playerIdCounter],
          userIdCounter := st.userIdCounter,
          playerIdCounter := st.playerIdCounter + 1 } := by
  unfold MemStorage.createGame
  dsimp only
  have hjg := joinGame_fresh
    { st with games := (alSet st.games newId (freshGame hostId isBot newId)),
              gamePlayers := (alSet st.gamePlayers newId []) }
    newId hostId (freshGame hostId isBot newId)
    (alGet_alSet_self _ _ _) rfl (alGet_alSet_self _ _ _)
  rw [hjg]
  dsimp only
  rw [alGet_alSet_self]
  by_cases hb : isBot = true
  · rw [if_pos hb, if_pos hb]
    rfl
  · rw [if_neg hb, if_neg hb]
    rfl

theorem createGame_CountInv (st : MemStorage) (hostId : Int) (isBot : Bool)
    (newId : String) (h : CountInv st) :
    CountInv (st.createGame hostId isBot newId).2 := by
  rw [createGame_snd]
  apply invProp_ite CountInv
  · intro k l hk
    dsimp only at hk
    by_cases hkk : k = newId
    · subst hkk
      rw [alGet_alSet_self] at hk
      cases hk
      simp
    · rw [alGet_alSet_ne _ _ _ _ (fun hh => hkk hh.symm)] at hk
      rw [alGet_alSet_ne _ _ _ _ (fun hh => hkk hh.symm)] at hk
      rw [alGet_alSet_ne _ _ _ _ (fun hh => hkk hh.symm)] at hk
      exact h k l hk
  · intro k l hk
    dsimp only at hk
    by_cases hkk : k = newId
    · subst hkk
      rw [alGet_alSet_self] at hk
      cases hk
      simp
    · rw [alGet_alSet_ne _ _ _ _ (fun hh => hkk hh.symm)] at hk
      rw [alGet_alSet_ne _ _ _ _ (fun hh => hkk hh.symm)] at hk
      exact h k l hk

theorem step_CountInv {st st' : MemStorage} (hs : Step st st') (h : CountInv st) :
    CountInv st' := by
  cases hs with
  | createUser name => exact CountInv_of_eq (createUser_gamePlayers _ name) h
  | createGame hostId isBot newId => exact createGame_CountInv _ hostId isBot newId h
  | joinGame gameId userId => exact joinGame_CountInv _ gameId userId h
  | startGame gameId now pick => exact CountInv_of_eq (startGame_gamePlayers _ gameId now pick) h
  | submitWord gameId userId word now pick =>
      exact CountInv_of_eq (submitWord_gamePlayers _ gameId userId word now pick) h
  | getGame id now pick botActs botPick =>
      exact CountInv_of_eq (getGame_gamePlayers _ id now pick botActs botPick) h
  | processBotMove gameId now botActs pick =>
      exact CountInv_of_eq (processBotMove_gamePlayers _ gameId now botActs pick) h

theorem reachable_CountInv {st : MemStorage} (h : Reachable st) : CountInv st := by
  induction h with
  | init => intro k l hk; cases hk
  | step hr hs ih => exact step_CountInv hs ih

theorem ExpiryInv_of_eq {s1 s2 : MemStorage} (he : s2.games = s1.games)
    (h : ExpiryInv s1) : ExpiryInv s2 := by
  intro k g hk
  rw [he] at hk
  exact h k g hk

theorem endRound_ExpiryInv (st : MemStorage) (game : Game) (w : Option String)
    (now : Int) (pick : Nat) (hst : game.status = Status.playing)
    (h : ExpiryInv st) : ExpiryInv (st.endRound game w now pick) := by
  unfold MemStorage.endRound
  by_cases h5 : game.round ≥ 5
  · rw [if_pos h5]
    intro k g' hk
    dsimp only at hk
    by_cases hkk : k = game.id
    · subst hkk
      rw [alGet_alSet_self] at hk
      cases hk
      simp
    · rw [alGet_alSet_ne _ _ _ _ (fun hh => hkk hh.symm)] at hk
      exact h k g' hk
  · rw [if_neg h5]
    intro k g' hk
    dsimp only at hk
    by_cases hkk : k = game.id
    · subst hkk
      rw [alGet_alSet_self] at hk
      cases hk
      simp [hst]
    · rw [alGet_alSet_ne _ _ _ _ (fun hh => hkk hh.symm)] at hk
      exact h k g' hk

theorem createGame_ExpiryInv (st : MemStorage) (hostId : Int) (isBot : Bool)
    (newId : String) (h : ExpiryInv st) :
    ExpiryInv (st.createGame hostId isBot newId).2 := by
  rw [createGame_snd]
  apply invProp_ite ExpiryInv
  all_goals
    intro k g' hk
    dsimp only at hk
    by_cases hkk : k = newId
  · subst hkk
    rw [alGet_alSet_self] at hk
    cases hk
    simp [freshGame]
  · rw [alGet_alSet_ne _ _ _ _ (fun hh => hkk hh.symm)] at hk
    exact h k g' hk
  · subst hkk
    rw [alGet_alSet_self] at hk
    cases hk
    simp [freshGame]
  · rw [alGet_alSet_ne _ _ _ _ (fun hh => hkk hh.symm)] at hk
    exact h k g' hk

theorem startGame_ExpiryInv (st : MemStorage) (gameId : String) (now : Int)
    (pick : Nat) (h : ExpiryInv st) : ExpiryInv (st.startGame gameId now pick).2 := by
  unfold MemStorage.startGame
  cases alGet st.games gameId with
  | none => exact h
  | some game =>
      dsimp only
      intro k g' hk
      by_cases hkk : k = gameId
      · subst hkk
        rw [alGet_alSet_self] at hk
        cases hk
        simp
      · rw [alGet_alSet_ne _ _ _ _ (fun hh => hkk hh.symm)] at hk
        exact h k g' hk

theorem submitWord_ExpiryInv (st : MemStorage) (gameId : String) (userId : Int)
    (word : String) (now : Int) (pick : Nat) (h : ExpiryInv st) :
    ExpiryInv (st.submitWord gameId userId word now pick).2 := by
  unfold MemStorage.submitWord
  cases alGet st.games gameId with
  | none => exact h
  | some game =>
      dsimp only
      by_cases hs : game.status ≠ Status.playing
      · rw [if_pos hs]; exact h
      · rw [if_neg hs]
        have hplay : game.status = Status.playing := by
          by_contra hcon
          exact hs hcon
        by_cases hm : jsToUpper (charAt0 (jsTrim word)) ≠ jsToUpper (sliceLast game.currentWord)
        · rw [if_pos hm]; exact h
        · rw [if_neg hm]
          cases hf : (((alGet st.gamePlayers gameId).getD []).map (fun pid => alGet st.players pid)).find?
              (fun po => match po with
                | some q => q.userId = userId
                | none => false) with
          | none => exact endRound_ExpiryInv _ _ _ _ _ hplay h
          | some po =>
              cases po with
              | none => exact endRound_ExpiryInv _ _ _ _ _ hplay h
              | some q =>
                  apply endRound_ExpiryInv _ _ _ _ _ hplay
                  exact ExpiryInv_of_eq rfl h

theorem processBotMove_ExpiryInv (st : MemStorage) (gameId : String) (now : Int)
    (botActs : Bool) (pick : Nat) (h : ExpiryInv st) :
    ExpiryInv (st.processBotMove gameId now botActs pick) := by
  unfold MemStorage.processBotMove
  cases alGet st.games gameId with
  | none => exact h
  | some game =>
      dsimp only
      by_cases hc : game.status ≠ Status.playing ∨ game.isBotGame = false
      · rw [if_pos hc]; exact h
      · rw [if_neg hc]
        by_cases hw : (match game.roundEndsAt with
            | some t => t - now
            | none => 0) < 3000 ∧ (match game.roundEndsAt with
            | some t => t - now
            | none => 0) > 1000
        · rw [if_pos hw]
          cases botActs with
          | false => exact h
          | true =>
              simp only [ite_true]
              exact submitWord_ExpiryInv _ _ _ _ _ _ h
        · rw [if_neg hw]; exact h

theorem getGame_ExpiryInv (st : MemStorage) (id : String) (now : Int) (pick : Nat)
    (botActs : Bool) (botPick : Nat) (h : ExpiryInv st) :
    ExpiryInv (st.getGame id now pick botActs botPick).2 := by
  unfold MemStorage.getGame
  cases hg : alGet st.games id with
  | none => exact h
  | some game =>
      dsimp only
      have hst1 : ExpiryInv (if (decide (game.status = Status.playing) &&
          match game.roundEndsAt with
          | some t => decide (now > t)
          | none => false) = true then st.endRound game none now pick else st) := by
        by_cases htd : (decide (game.status = Status.playing) &&
            match game.roundEndsAt with
            | some t => decide (now > t)
            | none => false) = true
        · rw [if_pos htd]
          have hplay : game.status = Status.playing := by
            have := Bool.and_elim_left htd
            simpa using this
          exact endRound_ExpiryInv _ _ _ _ _ hplay h
        · rw [if_neg htd]; exact h
      apply invProp_ite ExpiryInv
      · exact processBotMove_ExpiryInv _ _ _ _ _ hst1
      · exact hst1

theorem step_ExpiryInv {st st' : MemStorage} (hs : Step st st') (h : ExpiryInv st) :
    ExpiryInv st' := by
  cases hs with
  | createUser name => exact ExpiryInv_of_eq (congrArg MemStorage.games (rfl)) h
  | createGame hostId isBot newId => exact createGame_ExpiryInv _ hostId isBot newId h
  | joinGame gameId userId => exact ExpiryInv_of_eq (joinGame_games _ gameId userId) h
  | startGame gameId now pick => exact startGame_ExpiryInv _ gameId now pick h
  | submitWord gameId userId word now pick =>
      exact submitWord_ExpiryInv _ gameId userId word now pick h
  | getGame id now pick botActs botPick =>
      exact getGame_ExpiryInv _ id now pick botActs botPick h
  | processBotMove gameId now botActs pick =>
      exact processBotMove_ExpiryInv _ gameId now botActs pick h

theorem reachable_ExpiryInv {st : MemStorage} (h : Reachable st) : ExpiryInv st := by
  induction h with
  | init => intro k g hk; cases hk
  | step hr hs ih => exact step_ExpiryInv hs ih

theorem endRound_games_frame (st : MemStorage) (game : Game) (w : Option String)
    (now : Int) (pick : Nat) (k : String) (hne : k ≠ game.id) :
    alGet (st.endRound game w now pick).games k = alGet st.games k := by
  unfold MemStorage.endRound
  by_cases h5 : game.round ≥ 5
  · rw [if_pos h5]
    exact alGet_alSet_ne _ _ _ _ (fun hh => hne hh.symm)
  · rw [if_neg h5]
    exact alGet_alSet_ne _ _ _ _ (fun hh => hne hh.symm)

theorem submitWord_games_frame (st : MemStorage) (gameId : String) (userId : Int)
    (word : String) (now : Int) (pick : Nat) (k : String)
    (hKey : KeyIdInv st) (hne : k ≠ gameId) :
    alGet (st.submitWord gameId userId word now pick).2.games k = alGet st.games k := by
  unfold MemStorage.submitWord
  cases hg : alGet st.games gameId with
  | none => rfl
  | some game =>
      dsimp only
      have hgid : game.id = gameId := hKey _ _ hg
      have hne' : k ≠ game.id := by rw [hgid]; exact hne
      by_cases hs : game.status ≠ Status.playing
      · rw [if_pos hs]
      · rw [if_neg hs]
        by_cases hm : jsToUpper (charAt0 (jsTrim word)) ≠ jsToUpper (sliceLast game.currentWord)
        · rw [if_pos hm]
        · rw [if_neg hm]
          cases hf : (((alGet st.gamePlayers gameId).getD []).map (fun pid => alGet st.players pid)).find?
              (fun po => match po with
                | some q => q.userId = userId
                | none => false) with
          | none => exact endRound_games_frame _ _ _ _ _ _ hne'
          | some po =>
              cases po with
              | none => exact endRound_games_frame _ _ _ _ _ _ hne'
              | some q => exact endRound_games_frame _ _ _ _ _ _ hne'

theorem processBotMove_games_frame (st : MemStorage) (gameId : String) (now : Int)
    (botActs : Bool) (pick : Nat) (k : String)
    (hKey : KeyIdInv st) (hne : k ≠ gameId) :
    alGet (st.processBotMove gameId now botActs pick).games k = alGet st.games k := by
  unfold MemStorage.processBotMove
  cases hg : alGet st.games gameId with
  | none => rfl
  | some game =>
      dsimp only
      by_cases hc : game.status ≠ Status.playing ∨ game.isBotGame = false
      · rw [if_pos hc]
      · rw [if_neg hc]
        by_cases hw : (match game.roundEndsAt with
            | some t => t - now
            | none => 0) < 3000 ∧ (match game.roundEndsAt with
            | some t => t - now
            | none => 0) > 1000
        · rw [if_pos hw]
          cases botActs with
          | false => rfl
          | true =>
              simp only [ite_true]
              exact submitWord_games_frame _ _ _ _ _ _ _ hKey hne
        · rw [if_neg hw]

theorem getGame_games_frame (st : MemStorage) (id : String) (now : Int) (pick : Nat)
    (botActs : Bool) (botPick : Nat) (k : String)
    (hKey : KeyIdInv st) (hne : k ≠ id) :
    alGet (st.getGame id now pick botActs botPick).2.games k = alGet st.games k := by
  unfold MemStorage.getGame
  cases hg : alGet st.games id with
  | none => rfl
  | some game =>
      dsimp only
      have hgid : game.id = id := hKey _ _ hg
      have hne' : k ≠ game.id := by rw [hgid]; exact hne
      have hst1 : alGet (if (decide (game.status = Status.playing) &&
          match game.roundEndsAt with
          | some t => decide (now > t)
          | none => false) = true then st.endRound game none now pick else st).games k
          = alGet st.games k := by
        by_cases htd : (decide (game.status = Status.playing) &&
            match game.roundEndsAt with
            | some t => decide (now > t)
            | none => false) = true
        · rw [if_pos htd]
          exact endRound_games_frame _ _ _ _ _ _ hne'
        · rw [if_neg htd]
      have hKey1 : KeyIdInv (if (decide (game.status = Status.playing) &&
          match game.roundEndsAt with
          | some t => decide (now > t)
          | none => false) = true then st.endRound game none now pick else st) := by
        apply invProp_ite KeyIdInv
        · exact endRound_KeyIdInv _ _ _ _ _ hKey
        · exact hKey
      apply Eq.trans _ hst1
      apply invProp_ite (fun s2 => alGet s2.games k = alGet (if (decide (game.status = Status.playing) &&
          match game.roundEndsAt with
          | some t => decide (now > t)
          | none => false) = true then st.endRound game none now pick else st).games k)
      · exact processBotMove_games_frame _ _ _ _ _ _ hKey1 hne
      · rfl

theorem startGame_games_frame (st : MemStorage) (gameId : String) (now : Int)
    (pick : Nat) (k : String) (hne : k ≠ gameId) :
    alGet (st.startGame gameId now pick).2.games k = alGet st.games k := by
  unfold MemStorage.startGame
  cases hg : alGet st.games gameId with
  | none => rfl
  | some game =>
      dsimp only
      exact alGet_alSet_ne _ _ _ _ (fun hh => hne hh.symm)

theorem createGame_games_frame (st : MemStorage) (hostId : Int) (isBot : Bool)
    (newId : String) (k : String) (hne : k ≠ newId) :
    alGet (st.createGame hostId isBot newId).2.games k = alGet st.games k := by
  rw [createGame_snd]
  apply invProp_ite (fun s2 => alGet s2.games k = alGet st.games k)
  · exact alGet_alSet_ne _ _ _ _ (fun hh => hne hh.symm)
  · exact alGet_alSet_ne _ _ _ _ (fun hh => hne hh.symm)

theorem submitWord_not_playing (st : MemStorage) (gameId : String) (userId : Int)
    (word : String) (now : Int) (pick : Nat) (g : Game)
    (hg : alGet st.games gameId = some g) (hs : g.status ≠ Status.playing) :
    (st.submitWord gameId userId word now pick).2 = st := by
  unfold MemStorage.submitWord
  rw [hg]
  dsimp only
  rw [if_pos hs]

theorem processBotMove_not_playing (st : MemStorage) (gameId : String) (now : Int)
    (botActs : Bool) (pick : Nat) (g : Game)
    (hg : alGet st.games gameId = some g) (hs : g.status ≠ Status.playing) :
    st.processBotMove gameId now botActs pick = st := by
  unfold MemStorage.processBotMove
  rw [hg]
  dsimp only
  rw [if_pos (Or.inl hs)]

theorem getGame_not_playing (st : MemStorage) (id : String) (now : Int) (pick : Nat)
    (botActs : Bool) (botPick : Nat) (g : Game)
    (hg : alGet st.games id = some g) (hs : g.status ≠ Status.playing) :
    (st.getGame id now pick botActs botPick).2 = st := by
  unfold MemStorage.getGame
  rw [hg]
  dsimp only
  have htd : (decide (g.status = Status.playing) &&
      match g.roundEndsAt with
      | some t => decide (now > t)
      | none => false) = false := by
    have : decide (g.status = Status.playing) = false := decide_eq_false hs
    simp [this]
  rw [htd]
  simp only [Bool.false_eq_true, if_false]
  rw [hg]
  simp only [Option.getD_some]
  rw [if_neg]
  intro hcon
  exact hs hcon.1

/-- C8: in every reachable store, a game's roundEndsAt is non-null exactly
when its status is playing, and every single public operation preserves
this biconditional. -/
theorem roundEndsAt_iff_playing (st : MemStorage) (h : Reachable st) :
    ExpiryInv st ∧ (∀ s1 s2 : MemStorage, ExpiryInv s1 → Step s1 s2 → ExpiryInv s2) :=
  ⟨reachable_ExpiryInv h, fun _ _ h1 hs => step_ExpiryInv hs h1⟩

/-- C5: in every reachable store every game has at most four enrolled
players, every public operation preserves that bound, and joining a
waiting game that already holds four players fails with Game full leaving
the store unchanged. -/
theorem playerCount_bounded (st : MemStorage) (h : Reachable st) :
    CountInv st ∧
    (∀ s1 s2 : MemStorage, CountInv s1 → Step s1 s2 → CountInv s2) ∧
    (∀ gameId userId g pids, alGet st.games gameId = some g →
      g.status = Status.waiting →
      alGet st.gamePlayers gameId = some pids → pids.length = 4 →
      st.joinGame gameId userId = (Except.error "Game full", st)) := by
  refine ⟨reachable_CountInv h, fun _ _ h1 hs => step_CountInv hs h1, ?_⟩
  intro gameId userId g pids hg hw hpl hlen
  unfold MemStorage.joinGame
  rw [hg]
  dsimp only
  rw [if_neg (by rw [hw]; exact fun hh => hh rfl)]
  rw [hpl]
  simp only [Option.getD_some]
  rw [if_pos (by omega)]

/-- C2 amended: in every reachable store, a finished game keeps a null
expiry, and its record survives unchanged through every public operation
other than startGame aimed at it (which unconditionally restarts it, the
counterexample) and createGame reusing its id (which replaces the record);
in particular no operation but those two ever changes its status again. -/
theorem finished_stable (st : MemStorage) (gid : String) (g : Game)
    (h : Reachable st)
    (hg : alGet st.games gid = some g)
    (hf : g.status = Status.finished) :
    g.roundEndsAt = none ∧
    (∀ name, alGet (st.createUser name).2.games gid = some g) ∧
    (∀ hostId isBot newId, newId ≠ gid →
      alGet (st.createGame hostId isBot newId).2.games gid = some g) ∧
    (∀ gid2 userId, alGet (st.joinGame gid2 userId).2.games gid = some g) ∧
    (∀ gid2 now pick, gid2 ≠ gid →
      alGet (st.startGame gid2 now pick).2.games gid = some g) ∧
    (∀ gid2 userId word now pick,
      alGet (st.submitWord gid2 userId word now pick).2.games gid = some g) ∧
    (∀ id2 now pick botActs botPick,
      alGet (st.getGame id2 now pick botActs botPick).2.games gid = some g) ∧
    (∀ gid2 now botActs pick,
      alGet (st.processBotMove gid2 now botActs pick).games gid = some g) := by
  have hKey : KeyIdInv st := reachable_KeyIdInv h
  have hExp : ExpiryInv st := reachable_ExpiryInv h
  have hnp : g.status ≠ Status.playing := by rw [hf]; intro hcon; cases hcon
  refine ⟨?_, ?_, ?_, ?_, ?_, ?_, ?_, ?_⟩
  · have := hExp _ _ hg
    by_cases hn : g.roundEndsAt = none
    · exact hn
    · exact absurd (this.mp hn) hnp
  · intro name
    rw [createUser_games]
    exact hg
  · intro hostId isBot newId hne
    rw [createGame_games_frame _ _ _ _ _ (fun hh => hne hh.symm)]
    exact hg
  · intro gid2 userId
    rw [joinGame_games]
    exact hg
  · intro gid2 now pick hne
    rw [startGame_games_frame _ _ _ _ _ (fun hh => hne hh.symm)]
    exact hg
  · intro gid2 userId word now pick
    by_cases hsame : gid2 = gid
    · subst hsame
      rw [submitWord_not_playing _ _ _ _ _ _ _ hg hnp]
      exact hg
    · rw [submitWord_games_frame _ _ _ _ _ _ _ hKey (fun hh => hsame hh.symm)]
      exact hg
  · intro id2 now pick botActs botPick
    by_cases hsame : id2 = gid
    · subst hsame
      rw [getGame_not_playing _ _ _ _ _ _ _ hg hnp]
      exact hg
    · rw [getGame_games_frame _ _ _ _ _ _ _ hKey (fun hh => hsame hh.symm)]
      exact hg
  · intro gid2 now botActs pick
    by_cases hsame : gid2 = gid
    · subst hsame
      rw [processBotMove_not_playing _ _ _ _ _ _ hg hnp]
      exact hg
    · rw [processBotMove_games_frame _ _ _ _ _ _ hKey (fun hh => hsame hh.symm)]
      exact hg

theorem reachable_stGame1 : Reachable stGame1 :=
  Reachable.step Reachable.init (Step.createGame emptyStorage 1 false "GAME01")

theorem reachable_stGame4 : Reachable stGame4 :=
  Reachable.step
    (Reachable.step
      (Reachable.step reachable_stGame1 (Step.joinGame stGame1 "GAME01" 2))
      (Step.joinGame (stGame1.joinGame "GAME01" 2).2 "GAME01" 3))
    (Step.joinGame ((stGame1.joinGame "GAME01" 2).2.joinGame "GAME01" 3).2 "GAME01" 4)

theorem reachable_stPlaying : Reachable stPlaying :=
  Reachable.step reachable_stGame1 (Step.startGame stGame1 "GAME01" 1000 0)

theorem reachable_stR5 : Reachable stR5 :=
  Reachable.step
    (Reachable.step
      (Reachable.step
        (Reachable.step reachable_stPlaying (Step.submitWord stPlaying "GAME01" 1 "EVE" 2000 0))
        (Step.submitWord stR2 "GAME01" 1 "EVE" 2000 0))
      (Step.submitWord stR3 "GAME01" 1 "EVE" 2000 0))
    (Step.submitWord stR4 "GAME01" 1 "EVE" 2000 0)

theorem reachable_stFinished : Reachable stFinished :=
  Reachable.step reachable_stR5 (Step.submitWord stR5 "GAME01" 99 "EGG" 2000 0)

/-- C1 counterexample: in a reachable waiting game holding four players,
one of them user 1, a rejoin by user 1 raises Game full instead of
returning the existing player record, because the full-game check runs
before the rejoin check. -/
theorem joinGame_full_rejoin_cex :
    Reachable stGame4 ∧
    (alGet stGame4.games "GAME01").map Game.status = some Status.waiting ∧
    alGet stGame4.gamePlayers "GAME01" = some [1, 2, 3, 4] ∧
    alGet stGame4.players 1 = some hostRec ∧
    (stGame4.joinGame "GAME01" 1).1 = Except.error "Game full" :=
  ⟨reachable_stGame4, rfl, rfl, rfl, rfl⟩

/-- Witness for the amended C1 theorem at a one-player waiting game. -/
theorem joinGame_rejoin_idempotent_witness :
    stGame1.joinGame "GAME01" 1 = (Except.ok hostRec, stGame1) :=
  joinGame_rejoin_idempotent stGame1 "GAME01" 1 (freshGame 1 false "GAME01") [1] 1 hostRec
    rfl rfl rfl (by decide) rfl rfl

/-- C2 counterexample: a reachable finished game is set back to playing by
startGame, so a finished status does not persist under every operation. -/
theorem startGame_revives_finished_cex :
    Reachable stFinished ∧
    (alGet stFinished.games "GAME01").map Game.status = some Status.finished ∧
    (alGet (stFinished.startGame "GAME01" 9999 3).2.games "GAME01").map Game.status
      = some Status.playing :=
  ⟨reachable_stFinished, rfl, rfl⟩

/-- Witness for the amended C2 theorem at a reachable finished game. -/
theorem finished_stable_witness :
    gFinished.roundEndsAt = none ∧
    alGet (stFinished.submitWord "GAME01" 1 "EVE" 12345 0).2.games "GAME01" = some gFinished :=
  ⟨(finished_stable stFinished "GAME01" gFinished reachable_stFinished rfl rfl).1,
   (finished_stable stFinished "GAME01" gFinished reachable_stFinished rfl rfl).2.2.2.2.2.1
     "GAME01" 1 "EVE" 12345 0⟩

/-- Witness for C3 at a playing game on the word BANANA, which cannot
follow APPLE. -/
theorem submitWord_mismatch_unchanged_witness :
    stPlaying.submitWord "GAME01" 1 "BANANA" 2000 0 =
      ({ valid := false,
         message := some (mismatchMsg (jsToUpper (sliceLast gPlaying.currentWord))) }, stPlaying) :=
  submitWord_mismatch_unchanged stPlaying "GAME01" 1 "BANANA" 2000 0 gPlaying rfl rfl (by decide)

/-- Witness for C4: the host submits EVE after APPLE and earns one point. -/
theorem submitWord_success_enrolled_witness :
    (stPlaying.submitWord "GAME01" 1 "EVE" 2000 0).1 = { valid := true, message := none } ∧
    alGet (stPlaying.submitWord "GAME01" 1 "EVE" 2000 0).2.players 1 =
      some { hostRec with score := hostRec.score + 1 } :=
  ⟨(submitWord_success_enrolled stPlaying "GAME01" 1 "EVE" 2000 0 gPlaying hostRec
      rfl rfl rfl (by decide) rfl).1,
   (submitWord_success_enrolled stPlaying "GAME01" 1 "EVE" 2000 0 gPlaying hostRec
      rfl rfl rfl (by decide) rfl).2.2.1⟩

/-- Witness for C5 at a reachable four-player waiting game. -/
theorem playerCount_bounded_witness :
    stGame4.joinGame "GAME01" 5 = (Except.error "Game full", stGame4) :=
  (playerCount_bounded stGame4 reachable_stGame4).2.2 "GAME01" 5
    (freshGame 1 false "GAME01") [1, 2, 3, 4] rfl rfl rfl rfl

/-- Witness for C6 at a freshly created game. -/
theorem startGame_spec_witness :
    (stGame1.startGame "GAME01" 1000 0).1 = Except.ok () ∧
    (startWords.get? (0 % startWords.length)).getD "" ∈ startWords :=
  ⟨((startGame_spec stGame1 "GAME01" 1000 0).2 (freshGame 1 false "GAME01") rfl).1,
   ((startGame_spec stGame1 "GAME01" 1000 0).2 (freshGame 1 false "GAME01") rfl).2.2.1⟩

/-- Witness for C7: reading the round-1 game 1000 ms past its expiry. -/
theorem getGame_timeout_witness :
    (stPlaying.getGame "GAME01" 7000 2 true 0).2.players = stPlaying.players ∧
    alGet (stPlaying.getGame "GAME01" 7000 2 true 0).2.games "GAME01" =
      some { gPlaying with round := gPlaying.round + 1,
                           currentWord := (backupWords.get? (2 % backupWords.length)).getD "",
                           roundEndsAt := some (7000 + 5000) } :=
  ⟨(getGame_timeout stPlaying "GAME01" 7000 2 true 0 gPlaying 6000
      rfl rfl rfl rfl (by decide)).1,
   ((getGame_timeout stPlaying "GAME01" 7000 2 true 0 gPlaying 6000
      rfl rfl rfl rfl (by decide)).2.1 (by decide)).1⟩

/-- Witness for C8 at a reachable playing game. -/
theorem roundEndsAt_iff_playing_witness : ExpiryInv stPlaying :=
  (roundEndsAt_iff_playing stPlaying reachable_stPlaying).1

/-- C9 counterexample: at a reachable playing game in round 5, a valid
submission by the non-enrolled user 99 returns valid true but does not
advance the round and does not install the submitted word; it finishes the
game instead. -/
theorem submitWord_not_enrolled_round5_cex :
    Reachable stR5 ∧
    (alGet stR5.games "GAME01").map Game.status = some Status.playing ∧
    (alGet stR5.games "GAME01").map Game.round = some 5 ∧
    ((((alGet stR5.gamePlayers "GAME01").getD []).map (fun pid => alGet stR5.players pid)).find?
      (fun po => match po with
        | some q => q.userId = 99
        | none => false)) = none ∧
    (stR5.submitWord "GAME01" 99 "EGG" 2000 0).1 = { valid := true, message := none } ∧
    (alGet (stR5.submitWord "GAME01" 99 "EGG" 2000 0).2.games "GAME01").map Game.round = some 5 ∧
    (alGet (stR5.submitWord "GAME01" 99 "EGG" 2000 0).2.games "GAME01").map Game.currentWord
      = some "EVE" ∧
    (alGet (stR5.submitWord "GAME01" 99 "EGG" 2000 0).2.games "GAME01").map Game.status
      = some Status.finished :=
  ⟨reachable_stR5, rfl, rfl, rfl, rfl, rfl, rfl, rfl⟩

/-- Witness for the amended C9 theorem: user 99 is not enrolled yet the
submission is accepted without touching any player record. -/
theorem submitWord_success_not_enrolled_witness :
    (stPlaying.submitWord "GAME01" 99 "EVE" 2000 0).1 = { valid := true, message := none } ∧
    (stPlaying.submitWord "GAME01" 99 "EVE" 2000 0).2.players = stPlaying.players :=
  ⟨(submitWord_success_not_enrolled stPlaying "GAME01" 99 "EVE" 2000 0 gPlaying
      rfl rfl rfl (by decide) rfl).1,
   (submitWord_success_not_enrolled stPlaying "GAME01" 99 "EVE" 2000 0 gPlaying
      rfl rfl rfl (by decide) rfl).2.1⟩

/-- Witness for C10: the submission has a leading and a trailing space,
passes the first-letter check after trimming, and is stored untrimmed, so
the next required letter is the space character. -/
theorem submitWord_stores_raw_uppercased_witness :
    (alGet (stPlaying.submitWord "GAME01" 1 " eel " 2000 0).2.games "GAME01").map Game.currentWord
      = some (jsToUpper " eel ") ∧
    (alGet (stPlaying.submitWord "GAME01" 1 " eel " 2000 0).2.games "GAME01").map
        (fun g2 => sliceLast g2.currentWord) = some (String.mk [Char.toUpper (Char.ofNat 32)]) :=
  ⟨(submitWord_stores_raw_uppercased stPlaying "GAME01" 1 " eel " 2000 0 gPlaying
      rfl rfl rfl (by decide) (by decide)).1,
   (submitWord_stores_raw_uppercased stPlaying "GAME01" 1 " eel " 2000 0 gPlaying
      rfl rfl rfl (by decide) (by decide)).2 (Char.ofNat 32) rfl⟩

end WordChain
